import Mathlib

/-!
Verification of the task-manager chat tool layer.

The development shallowly embeds two parts of the repository:

* `Mcp` — the chat-path tool executor (`backend/src/mcp_tools.py`,
  class `MCPToolExecutor`).  The database session is modelled as an
  explicit store state `Mcp.DB`; the external standard-library datetime
  functions (`datetime.fromisoformat`, `datetime.isoformat`) are passed
  in as parameters `parse : String → Option Nat` and `fmt : Nat → String`
  so that every theorem holds for an arbitrary datetime implementation,
  while the executor's own control flow is translated line by line.

* `Cli` — the in-memory single-user storage (`src/storage.py`,
  class `InMemoryStorage`) used for the id-monotonicity claims.

String helpers `pyStrip`, `pyLower`, `replaceZ`, `pyIntOfString` model
the Python primitives `str.strip`, `str.lower`,
`str.replace("Z", "+00:00")` and `int(str)` used by the source.
-/

/-- Model of Python `str.strip()`: drop whitespace from both ends. -/
def pyStrip (s : String) : String :=
String.mk (((s.data.dropWhile Char.isWhitespace).reverse.dropWhile Char.isWhitespace).reverse)

/-- Model of Python `str.lower()`. -/
def pyLower (s : String) : String :=
String.mk (s.data.map Char.toLower)

/-- Model of the source's `due_date.replace('Z', '+00:00')`. -/
def replaceZ (s : String) : String :=
String.mk (s.data.foldr (fun c acc => if c = 'Z' then '+' :: '0' :: '0' :: ':' :: '0' :: '0' :: acc else c :: acc) [])

/-- Numeric value of a decimal digit character. -/
def digitVal (c : Char) : Nat := c.toNat - '0'.toNat

/-- Digit-run tail for the model of Python `int(str)`: digits with single
underscores allowed between digits, as Python accepts. -/
def pyDigitsAux : Nat → List Char → Option Nat
| acc, [] => some acc
| _, ['_'] => none
| acc, '_' :: c :: cs => if c.isDigit then pyDigitsAux (acc * 10 + digitVal c) cs else none
| acc, c :: cs => if c.isDigit then pyDigitsAux (acc * 10 + digitVal c) cs else none

/-- Nonempty digit run for the model of Python `int(str)`. -/
def pyDigits : List Char → Option Nat
| [] => none
| c :: cs => if c.isDigit then pyDigitsAux (digitVal c) cs else none

/-- Model of Python `int(s)` on strings: optional surrounding whitespace,
optional sign, then a nonempty digit run; `none` models `ValueError`. -/
def pyIntOfString (s : String) : Option Int :=
match (pyStrip s).data with
| '+' :: cs => (pyDigits cs).map (fun n => Int.ofNat n)
| '-' :: cs => (pyDigits cs).map (fun n => -(Int.ofNat n))
| cs => (pyDigits cs).map (fun n => Int.ofNat n)

namespace Mcp

/-- JSON-like scalar values appearing in tool payloads. -/
inductive Value where
| str (s : String)
| int (n : Int)
| bool (b : Bool)
deriving DecidableEq

/-- A tool result dictionary: key-value pairs in insertion order, as a
Python dict literal. -/
abbrev Payload := List (String × Value)

/-- The `Priority` enum of the backend task model (spec section 3:
one of high, medium, low). -/
inductive Priority where
| high
| medium
| low
deriving DecidableEq

/-- The `.value` of a `Priority` enum member. -/
def Priority.value : Priority → String
| Priority.high => "high"
| Priority.medium => "medium"
| Priority.low => "low"

/-- The backend `Task` row (fields per the data model: due dates and
timestamps are abstract instants represented as `Nat`). -/
structure Task where
  id : Int
  user_id : String
  title : String
  description : String
  completed : Bool
  priority : Option Priority
  due_date : Option Nat
  reminder_at : Option Nat
  created_at : Nat
  updated_at : Nat
deriving DecidableEq

/-- The task store visible through one database session: the rows plus
the auto-increment counter for primary keys. -/
structure DB where
  tasks : List Task
  nextId : Nat
deriving DecidableEq

/-- The row predicate of `select(Task).where(Task.id == task_id,
Task.user_id == self.user_id)`. -/
def taskPred (tid : Int) (uid : String) (t : Task) : Bool :=
t.id == tid && t.user_id == uid

/-- Model of `scalar_one_or_none` on the id/user query: the unique row
matching both the id and the bound user, if any. -/
def findTask (db : DB) (uid : String) (tid : Int) : Option Task :=
db.tasks.find? (taskPred tid uid)

/-- The soft-failure payload shared by `complete_task`, `delete_task`
and `update_task`. -/
def notFoundPayload (tid : Int) : Payload :=
[("error", Value.str ("Task " ++ toString tid ++ " not found"))]

/-- In-place mutation of the single row matched by the id/user query. -/
def mapUpdate (db : DB) (uid : String) (tid : Int) (g : Task → Task) : DB :=
DB.mk (db.tasks.map (fun x => if taskPred tid uid x then g x else x)) db.nextId

/-- Parsing of an optional date-string argument in `add_task`:
`if due_date:` skips `None` and the empty string, then
`datetime.fromisoformat(due_date.replace('Z', '+00:00'))` with
`ValueError` swallowed (`except ValueError: pass`). -/
def parseDateArg (parse : String → Option Nat) : Option String → Option Nat
| none => none
| some s => if s = "" then none else parse (replaceZ s)

/-- The priority-string mapping of `add_task`: `high` and `low` after
lowercasing, anything else falls back to `Priority.MEDIUM`. -/
def priorityFromString (s : String) : Priority :=
if pyLower s = "high" then Priority.high
else if pyLower s = "low" then Priority.low
else Priority.medium

/-- `MCPToolExecutor.add_task`, with the executor's bound user id, the
current instant and the datetime primitives passed explicitly. -/
def add_task (db : DB) (uid : String) (now : Nat) (parse : String → Option Nat) (fmt : Nat → String)
    (title description priority : String) (due_date reminder_at : Option String) : Payload × DB :=
let parsed_due_date := parseDateArg parse due_date
let parsed_reminder_at := parseDateArg parse reminder_at
let priority_enum := priorityFromString priority
let task : Task := Task.mk (Int.ofNat db.nextId) uid title description false (some priority_enum) parsed_due_date parsed_reminder_at now now
let result : Payload := [("task_id", Value.int task.id), ("status", Value.str "created"), ("title", Value.str task.title), ("priority", Value.str priority_enum.value)]
  ++ (match task.due_date with | some d => [("due_date", Value.str (fmt d))] | none => [])
  ++ (match task.reminder_at with | some d => [("reminder_at", Value.str (fmt d))] | none => [])
(result, DB.mk (db.tasks ++ [task]) (db.nextId + 1))

/-- The ordering relation of `order_by(Task.created_at.desc())`:
newest-created first. -/
def createdGe (a b : Task) : Prop := b.created_at ≤ a.created_at

instance : DecidableRel createdGe := fun a b => Nat.decLe b.created_at a.created_at

instance : IsTotal Task createdGe := ⟨fun a b => Nat.le_total b.created_at a.created_at⟩

instance : IsTrans Task createdGe := ⟨fun _ _ _ hab hbc => Nat.le_trans hbc hab⟩

/-- The optional status filter of `list_tasks`: `pending` keeps
`completed == False`, `completed` keeps `completed == True`, anything
else leaves the query unfiltered. -/
def statusFilter (status : String) (l : List Task) : List Task :=
if status = "pending" then l.filter (fun t => t.completed == false)
else if status = "completed" then l.filter (fun t => t.completed == true)
else l

/-- The rows returned by the `list_tasks` query: the bound user's rows,
status-filtered, ordered by `created_at` descending. -/
def listTasksRaw (db : DB) (uid : String) (status : String) : List Task :=
List.insertionSort createdGe (statusFilter status (db.tasks.filter (fun t => t.user_id == uid)))

/-- The per-task summary dictionary built by `list_tasks`. -/
def taskSummary (fmt : Nat → String) (t : Task) : Payload :=
[("id", Value.int t.id), ("title", Value.str t.title), ("completed", Value.bool t.completed), ("description", Value.str t.description), ("priority", Value.str (match t.priority with | some p => p.value | none => "medium"))]
  ++ (match t.due_date with | some d => [("due_date", Value.str (fmt d))] | none => [])
  ++ (match t.reminder_at with | some d => [("reminder_at", Value.str (fmt d))] | none => [])

/-- `MCPToolExecutor.list_tasks`. -/
def list_tasks (db : DB) (uid : String) (fmt : Nat → String) (status : String) : List Payload :=
(listTasksRaw db uid status).map (taskSummary fmt)

/-- A `task_id` argument as the executor receives it: either an integer
or a string (the LLM may pass either). -/
inductive TaskIdArg where
| int (n : Int)
| str (s : String)
deriving DecidableEq

/-- The `task_id = int(task_id)` coercion at the top of `complete_task`,
`delete_task` and `update_task`; `none` models the `ValueError` raised
on a non-numeric string. -/
def coerceTaskId : TaskIdArg → Option Int
| TaskIdArg.int n => some n
| TaskIdArg.str s => pyIntOfString s

/-- Body of `complete_task` after id coercion. -/
def completeTaskCore (db : DB) (uid : String) (now : Nat) (tid : Int) : Payload × DB :=
match findTask db uid tid with
| none => (notFoundPayload tid, db)
| some task =>
  let task2 := { task with completed := true, updated_at := now }
  ([("task_id", Value.int task2.id), ("status", Value.str "completed"), ("title", Value.str task2.title)],
   mapUpdate db uid tid (fun x => { x with completed := true, updated_at := now }))

/-- Body of `delete_task` after id coercion: the returned `task_id` key
is the coerced argument, the title is captured before removal, and the
row is removed by primary key. -/
def deleteTaskCore (db : DB) (uid : String) (tid : Int) : Payload × DB :=
match findTask db uid tid with
| none => (notFoundPayload tid, db)
| some task =>
  ([("task_id", Value.int tid), ("status", Value.str "deleted"), ("title", Value.str task.title)],
   DB.mk (db.tasks.filter (fun x => !(x.id == task.id))) db.nextId)

/-- The field mutation of `update_task`: `if title:` applies only a
non-`None`, non-empty title (Python truthiness), while
`if description is not None:` applies any non-`None` description. -/
def applyUpdate (title description : Option String) (now : Nat) (x : Task) : Task :=
{ x with
  title := match title with
    | some s => if s = "" then x.title else s
    | none => x.title,
  description := match description with
    | some s => s
    | none => x.description,
  updated_at := now }

/-- Body of `update_task` after id coercion. -/
def updateTaskCore (db : DB) (uid : String) (now : Nat) (tid : Int) (title description : Option String) : Payload × DB :=
match findTask db uid tid with
| none => (notFoundPayload tid, db)
| some task =>
  let task2 := applyUpdate title description now task
  ([("task_id", Value.int task2.id), ("status", Value.str "updated"), ("title", Value.str task2.title)],
   mapUpdate db uid tid (applyUpdate title description now))

/-- `MCPToolExecutor.complete_task`, including the id coercion; an
`Except.error` models a raised exception. -/
def complete_task (db : DB) (uid : String) (now : Nat) (task_id : TaskIdArg) : Except String (Payload × DB) :=
match coerceTaskId task_id with
| none => Except.error "ValueError: invalid literal for int"
| some tid => Except.ok (completeTaskCore db uid now tid)

/-- `MCPToolExecutor.delete_task`, including the id coercion. -/
def delete_task (db : DB) (uid : String) (task_id : TaskIdArg) : Except String (Payload × DB) :=
match coerceTaskId task_id with
| none => Except.error "ValueError: invalid literal for int"
| some tid => Except.ok (deleteTaskCore db uid tid)

/-- `MCPToolExecutor.update_task`, including the id coercion. -/
def update_task (db : DB) (uid : String) (now : Nat) (task_id : TaskIdArg) (title description : Option String) : Except String (Payload × DB) :=
match coerceTaskId task_id with
| none => Except.error "ValueError: invalid literal for int"
| some tid => Except.ok (updateTaskCore db uid now tid title description)

/-- A result returned by `execute_tool`: a dict for the four mutating
tools and error shapes, a list of dicts for `list_tasks`. -/
inductive ToolResult where
| dict (p : Payload)
| list (l : List Payload)
deriving DecidableEq

/-- The loosely-typed argument mapping handed to `execute_tool`. -/
abbrev Args := List (String × Value)

/-- Dictionary lookup in an argument mapping. -/
def lookupArg (args : Args) (k : String) : Option Value :=
(args.find? (fun p => p.1 == k)).map (fun p => p.2)

/-- A required string argument; failure models the `TypeError` raised by
`**arguments` unpacking against the tool signature. -/
def reqStrArg (args : Args) (k : String) : Except String String :=
match lookupArg args k with
| some (Value.str s) => Except.ok s
| _ => Except.error "TypeError"

/-- An optional string argument. -/
def optStrArg (args : Args) (k : String) : Except String (Option String) :=
match lookupArg args k with
| none => Except.ok none
| some (Value.str s) => Except.ok (some s)
| some _ => Except.error "TypeError"

/-- The required `task_id` argument, accepted as integer or string. -/
def reqIdArg (args : Args) : Except String TaskIdArg :=
match lookupArg args "task_id" with
| some (Value.int n) => Except.ok (TaskIdArg.int n)
| some (Value.str s) => Except.ok (TaskIdArg.str s)
| _ => Except.error "TypeError"

/-- Keyword arguments outside a tool's signature raise `TypeError` under
`**arguments` unpacking. -/
def keysAllowed (args : Args) (allowed : List String) : Bool :=
args.all (fun p => allowed.contains p.1)

/-- `MCPToolExecutor.execute_tool`: dispatch by name over the five
tools, with the unknown-name soft failure in the final branch. -/
def execute_tool (db : DB) (uid : String) (now : Nat) (parse : String → Option Nat) (fmt : Nat → String)
    (name : String) (args : Args) : Except String (ToolResult × DB) :=
if name = "add_task" then
  if keysAllowed args ["title", "description", "priority", "due_date", "reminder_at"] then
    do
      let title ← reqStrArg args "title"
      let de ← optStrArg args "description"
      let pr ← optStrArg args "priority"
      let dd ← optStrArg args "due_date"
      let ra ← optStrArg args "reminder_at"
      let r := add_task db uid now parse fmt title (de.getD "") (pr.getD "medium") dd ra
      Except.ok (ToolResult.dict r.1, r.2)
  else Except.error "TypeError"
else if name = "list_tasks" then
  if keysAllowed args ["status"] then
    do
      let st ← optStrArg args "status"
      Except.ok (ToolResult.list (list_tasks db uid fmt (st.getD "all")), db)
  else Except.error "TypeError"
else if name = "complete_task" then
  if keysAllowed args ["task_id"] then
    do
      let tid ← reqIdArg args
      let r ← complete_task db uid now tid
      Except.ok (ToolResult.dict r.1, r.2)
  else Except.error "TypeError"
else if name = "delete_task" then
  if keysAllowed args ["task_id"] then
    do
      let tid ← reqIdArg args
      let r ← delete_task db uid tid
      Except.ok (ToolResult.dict r.1, r.2)
  else Except.error "TypeError"
else if name = "update_task" then
  if keysAllowed args ["task_id", "title", "description"] then
    do
      let tid ← reqIdArg args
      let ti ← optStrArg args "title"
      let de ← optStrArg args "description"
      let r ← update_task db uid now tid ti de
      Except.ok (ToolResult.dict r.1, r.2)
  else Except.error "TypeError"
else Except.ok (ToolResult.dict [("error", Value.str ("Unknown tool: " ++ name))], db)

/-- Projection of a store to its rows' titles, in row order. -/
def titlesOf (db : DB) : List String :=
db.tasks.map (fun x => x.title)

/-- Projection of a store to its rows' owners, in row order. -/
def userIdsOf (db : DB) : List String :=
db.tasks.map (fun x => x.user_id)

/-- A datetime parser that always fails, for concrete witnesses. -/
def noParse : String → Option Nat := fun _ => none

/-- A datetime parser that always succeeds, for concrete witnesses. -/
def someParse : String → Option Nat := fun _ => some 0

/-- A datetime formatter, for concrete witnesses. -/
def noFmt : Nat → String := fun _ => "1970-01-01T00:00:00"

/-- An empty store, for concrete witnesses. -/
def emptyDb : DB := DB.mk [] 1

/-- A sample task owned by user `u1`. -/
def sampleTask1 : Task :=
Task.mk 1 "u1" "Buy milk" "" false (some Priority.medium) none none 10 10

/-- A sample completed task owned by user `u1`. -/
def sampleTask2 : Task :=
Task.mk 2 "u1" "Pay rent" "monthly" true (some Priority.high) none none 20 20

/-- A sample task owned by user `u2`. -/
def sampleTask3 : Task :=
Task.mk 7 "u2" "Secret errand" "" false (some Priority.low) none none 30 30

/-- A sample store holding tasks of two users. -/
def sampleDb : DB := DB.mk [sampleTask1, sampleTask2, sampleTask3] 8

end Mcp

namespace Cli

/-- The CLI `Task` dataclass from `src/models.py`. -/
structure Task where
  id : Nat
  title : String
  description : String
  completed : Bool
  created_at : Nat
deriving DecidableEq

/-- The domain exceptions of `src/exceptions.py` raised by storage. -/
inductive TodoError where
| emptyTitle
| titleTooLong
| descriptionTooLong
| taskNotFound (id : Nat)
deriving DecidableEq

/-- `InMemoryStorage` from `src/storage.py`: the id-keyed task dict in
insertion order and the auto-increment counter. -/
structure InMemoryStorage where
  tasks : List (Nat × Task)
  next_id : Nat
deriving DecidableEq

/-- `InMemoryStorage.add`: validate the stripped title and description,
then create the task under the next id and bump the counter. -/
def InMemoryStorage.add (s : InMemoryStorage) (now : Nat) (title description : String) : Except TodoError (Task × InMemoryStorage) :=
let t := pyStrip title
if t = "" then Except.error TodoError.emptyTitle
else if t.length > 100 then Except.error TodoError.titleTooLong
else
  let d := pyStrip description
  if d.length > 500 then Except.error TodoError.descriptionTooLong
  else
    let task := Task.mk s.next_id t d false now
    Except.ok (task, InMemoryStorage.mk (s.tasks ++ [(s.next_id, task)]) (s.next_id + 1))

/-- `InMemoryStorage.delete`: remove the task or raise
`TaskNotFoundError`; the id counter is untouched. -/
def InMemoryStorage.delete (s : InMemoryStorage) (task_id : Nat) : Except TodoError (Bool × InMemoryStorage) :=
if s.tasks.any (fun p => p.1 == task_id) then
  Except.ok (true, InMemoryStorage.mk (s.tasks.filter (fun p => !(p.1 == task_id))) s.next_id)
else Except.error (TodoError.taskNotFound task_id)

/-- One operation of an add/delete interaction sequence with the store. -/
inductive StoreOp where
| add (now : Nat) (title description : String)
| delete (task_id : Nat)

/-- Run a sequence of add/delete operations, recording in order the id
assigned by every successful add. -/
def runOps : InMemoryStorage → List StoreOp → InMemoryStorage × List Nat
| s, [] => (s, [])
| s, StoreOp.add now t d :: ops =>
  match s.add now t d with
  | Except.ok td =>
    let r := runOps td.2 ops
    (r.1, td.1.id :: r.2)
  | Except.error _ => runOps s ops
| s, StoreOp.delete tid :: ops =>
  match s.delete tid with
  | Except.ok bd => runOps bd.2 ops
  | Except.error _ => runOps s ops

/-- The storage in its initial state. -/
def emptyStorage : InMemoryStorage := InMemoryStorage.mk [] 1

end Cli

/-! ## Helper lemmas -/

/-- Head reduction of `find?` on a matching head. -/
lemma find?_cons_true {α : Type} (p : α → Bool) (a : α) (l : List α) (h : p a = true) :
    (a :: l).find? p = some a := by
  simp [List.find?_cons, h]

/-- Head reduction of `find?` on a non-matching head. -/
lemma find?_cons_false {α : Type} (p : α → Bool) (a : α) (l : List α) (h : p a = false) :
    (a :: l).find? p = l.find? p := by
  simp [List.find?_cons, h]

/-- Mutating only elements matched by `p`, with a mutation that preserves
`p`, moves `find? p` through the map. -/
lemma find?_map_update {α : Type} (p : α → Bool) (g : α → α) (hp : ∀ x, p (g x) = p x) :
    ∀ (l : List α) (t : α), l.find? p = some t →
      (l.map (fun x => if p x then g x else x)).find? p = some (g t) := by
  intro l
  induction l with
  | nil => intro t h; simp [List.find?] at h
  | cons a l ih =>
    intro t h
    cases hpa : p a with
    | true =>
      rw [find?_cons_true p a l hpa] at h
      have hat : a = t := Option.some.inj h
      subst hat
      rw [List.map_cons, if_pos hpa]
      rw [find?_cons_true p (g a) _ (by rw [hp]; exact hpa)]
    | false =>
      rw [find?_cons_false p a l hpa] at h
      rw [List.map_cons, if_neg (by simp [hpa])]
      rw [find?_cons_false p a _ hpa]
      exact ih t h

/-- Row lookup after an in-place mutation of the matched row. -/
lemma findTask_mapUpdate (db : Mcp.DB) (uid : String) (tid : Int) (g : Mcp.Task → Mcp.Task)
    (hg : ∀ x, Mcp.taskPred tid uid (g x) = Mcp.taskPred tid uid x)
    (t : Mcp.Task) (h : Mcp.findTask db uid tid = some t) :
    Mcp.findTask (Mcp.mapUpdate db uid tid g) uid tid = some (g t) := by
  unfold Mcp.findTask Mcp.mapUpdate at *
  exact find?_map_update (Mcp.taskPred tid uid) g hg db.tasks t h

/-! ## Claim theorems -/

/-- Claim C1: for every task id not resolvable under the executor's bound
user id — absent entirely or owned by a different user, i.e. the id/user
query finds nothing — `complete_task`, `delete_task` and `update_task`
all return the identical not-found error payload as an ordinary result
and leave the store untouched, so the visible result never distinguishes
"exists but not yours" from "does not exist". -/
theorem c1_cross_user_not_found (db : Mcp.DB) (uid : String) (now : Nat) (tid : Int)
    (title description : Option String)
    (h : Mcp.findTask db uid tid = none) :
    Mcp.complete_task db uid now (Mcp.TaskIdArg.int tid) = Except.ok (Mcp.notFoundPayload tid, db)
    ∧ Mcp.delete_task db uid (Mcp.TaskIdArg.int tid) = Except.ok (Mcp.notFoundPayload tid, db)
    ∧ Mcp.update_task db uid now (Mcp.TaskIdArg.int tid) title description = Except.ok (Mcp.notFoundPayload tid, db) := by
  refine ⟨?_, ?_, ?_⟩ <;>
    simp [Mcp.complete_task, Mcp.delete_task, Mcp.update_task, Mcp.coerceTaskId,
      Mcp.completeTaskCore, Mcp.deleteTaskCore, Mcp.updateTaskCore, h]

/-- Witness for C1: in the sample store, task 7 exists but belongs to
user `u2`, so user `u1` completing it gets the not-found payload and an
unchanged store. -/
theorem c1_witness :
    Mcp.findTask Mcp.sampleDb "u1" 7 = none
    ∧ Mcp.complete_task Mcp.sampleDb "u1" 0 (Mcp.TaskIdArg.int 7) = Except.ok (Mcp.notFoundPayload 7, Mcp.sampleDb) :=
  ⟨by decide, (c1_cross_user_not_found Mcp.sampleDb "u1" 0 7 none none (by decide)).1⟩

/-- Claim C9: a `task_id` given as a numeric string behaves identically
to the corresponding integer in `complete_task`, `delete_task` and
`update_task`: same result payload and same resulting store. -/
theorem c9_string_id_coercion (db : Mcp.DB) (uid : String) (now : Nat) (s : String) (n : Int)
    (title description : Option String)
    (h : pyIntOfString s = some n) :
    Mcp.complete_task db uid now (Mcp.TaskIdArg.str s) = Mcp.complete_task db uid now (Mcp.TaskIdArg.int n)
    ∧ Mcp.delete_task db uid (Mcp.TaskIdArg.str s) = Mcp.delete_task db uid (Mcp.TaskIdArg.int n)
    ∧ Mcp.update_task db uid now (Mcp.TaskIdArg.str s) title description
        = Mcp.update_task db uid now (Mcp.TaskIdArg.int n) title description := by
  refine ⟨?_, ?_, ?_⟩ <;>
    simp [Mcp.complete_task, Mcp.delete_task, Mcp.update_task, Mcp.coerceTaskId, h]

/-- Witness for C9: completing task "2" as a string behaves exactly like
completing task 2 as an integer on the sample store. -/
theorem c9_witness :
    pyIntOfString "2" = some 2
    ∧ Mcp.complete_task Mcp.sampleDb "u1" 0 (Mcp.TaskIdArg.str "2")
        = Mcp.complete_task Mcp.sampleDb "u1" 0 (Mcp.TaskIdArg.int 2) :=
  ⟨by decide, (c9_string_id_coercion Mcp.sampleDb "u1" 0 "2" 2 none none (by decide)).1⟩

/-- Claim C2: `list_tasks` returns exactly the bound user's tasks with
`completed = false` for status `pending`, exactly those with
`completed = true` for status `completed`, and the user's full set for
`all` or any other status value, in every case ordered
newest-created-first; the payload list is the summary of those rows. -/
theorem c2_list_tasks_filter_order (db : Mcp.DB) (uid status : String) (fmt : Nat → String) :
    Mcp.list_tasks db uid fmt status = (Mcp.listTasksRaw db uid status).map (Mcp.taskSummary fmt)
    ∧ (status = "pending" →
        (Mcp.listTasksRaw db uid status).Perm
          (db.tasks.filter (fun t => t.user_id == uid && t.completed == false)))
    ∧ (status = "completed" →
        (Mcp.listTasksRaw db uid status).Perm
          (db.tasks.filter (fun t => t.user_id == uid && t.completed == true)))
    ∧ (status ≠ "pending" → status ≠ "completed" →
        (Mcp.listTasksRaw db uid status).Perm
          (db.tasks.filter (fun t => t.user_id == uid)))
    ∧ (Mcp.listTasksRaw db uid status).Pairwise Mcp.createdGe := by
  refine ⟨rfl, ?_, ?_, ?_, ?_⟩
  · intro hs
    subst hs
    unfold Mcp.listTasksRaw Mcp.statusFilter
    rw [if_pos rfl]
    refine (List.perm_insertionSort _ _).trans ?_
    rw [List.filter_filter]
    exact List.Perm.of_eq (List.filter_congr (fun x _ => Bool.and_comm _ _))
  · intro hs
    subst hs
    unfold Mcp.listTasksRaw Mcp.statusFilter
    rw [if_neg (by decide), if_pos rfl]
    refine (List.perm_insertionSort _ _).trans ?_
    rw [List.filter_filter]
    exact List.Perm.of_eq (List.filter_congr (fun x _ => Bool.and_comm _ _))
  · intro h1 h2
    unfold Mcp.listTasksRaw Mcp.statusFilter
    rw [if_neg h1, if_neg h2]
    exact List.perm_insertionSort _ _
  · exact List.sorted_insertionSort Mcp.createdGe _

/-- Witness for C2: on the sample store, listing with status `all` is a
permutation of user `u1`'s rows, listing `pending` gives exactly the
incomplete row, and the rows come out newest-created-first. -/
theorem c2_witness :
    (Mcp.listTasksRaw Mcp.sampleDb "u1" "all").Perm
      (Mcp.sampleDb.tasks.filter (fun t => t.user_id == "u1"))
    ∧ (Mcp.listTasksRaw Mcp.sampleDb "u1" "pending").Perm
      (Mcp.sampleDb.tasks.filter (fun t => t.user_id == "u1" && t.completed == false)) :=
  ⟨(c2_list_tasks_filter_order Mcp.sampleDb "u1" "all" Mcp.noFmt).2.2.2.1 (by decide) (by decide),
   (c2_list_tasks_filter_order Mcp.sampleDb "u1" "pending" Mcp.noFmt).2.1 rfl⟩

/-- Claim C6: completing a task that exists for the bound user and is
already complete succeeds, returning the same completion report (task
id, status `completed`, title) as a first completion, and the task's
`completed` field remains `true` afterwards. -/
theorem c6_complete_idempotent (db : Mcp.DB) (uid : String) (now : Nat) (tid : Int) (t : Mcp.Task)
    (h : Mcp.findTask db uid tid = some t) (hc : t.completed = true) :
    ∃ db2, Mcp.complete_task db uid now (Mcp.TaskIdArg.int tid)
        = Except.ok (([("task_id", Mcp.Value.int t.id), ("status", Mcp.Value.str "completed"), ("title", Mcp.Value.str t.title)] : Mcp.Payload), db2)
      ∧ Mcp.findTask db2 uid tid = some { t with completed := true, updated_at := now }
      ∧ (∀ t2, Mcp.findTask db2 uid tid = some t2 →
          t2.completed = true ∧ t2.title = t.title ∧ t2.id = t.id) := by
  refine ⟨Mcp.mapUpdate db uid tid (fun x => { x with completed := true, updated_at := now }), ?_, ?_, ?_⟩
  · simp [Mcp.complete_task, Mcp.coerceTaskId, Mcp.completeTaskCore, h]
  · exact findTask_mapUpdate db uid tid (fun x => { x with completed := true, updated_at := now }) (fun x => rfl) t h
  · intro t2 h2
    rw [findTask_mapUpdate db uid tid (fun x => { x with completed := true, updated_at := now }) (fun x => rfl) t h] at h2
    have := Option.some.inj h2
    subst this
    exact ⟨rfl, rfl, rfl⟩

/-- Witness for C6: task 2 of user `u1` in the sample store is already
complete; completing it again returns the normal completion report. -/
theorem c6_witness :
    Mcp.findTask Mcp.sampleDb "u1" 2 = some Mcp.sampleTask2
    ∧ ∃ db2, Mcp.complete_task Mcp.sampleDb "u1" 99 (Mcp.TaskIdArg.int 2)
        = Except.ok (([("task_id", Mcp.Value.int Mcp.sampleTask2.id), ("status", Mcp.Value.str "completed"), ("title", Mcp.Value.str Mcp.sampleTask2.title)] : Mcp.Payload), db2)
      ∧ Mcp.findTask db2 "u1" 2 = some { Mcp.sampleTask2 with completed := true, updated_at := 99 }
      ∧ (∀ t2, Mcp.findTask db2 "u1" 2 = some t2 →
          t2.completed = true ∧ t2.title = Mcp.sampleTask2.title ∧ t2.id = Mcp.sampleTask2.id) :=
  ⟨by decide, c6_complete_idempotent Mcp.sampleDb "u1" 99 2 Mcp.sampleTask2 (by decide) (by decide)⟩

/-- Claim C10: for a task that exists for the bound user, `update_task`
with an empty-string description applies it as a real change — the
stored description becomes the empty string — and returns the normal
updated report with the unchanged title. -/
theorem c10_update_empty_description (db : Mcp.DB) (uid : String) (now : Nat) (tid : Int) (t : Mcp.Task)
    (h : Mcp.findTask db uid tid = some t) :
    ∃ db2, Mcp.update_task db uid now (Mcp.TaskIdArg.int tid) none (some "")
        = Except.ok (([("task_id", Mcp.Value.int t.id), ("status", Mcp.Value.str "updated"), ("title", Mcp.Value.str t.title)] : Mcp.Payload), db2)
      ∧ Mcp.findTask db2 uid tid = some { t with description := "", updated_at := now } := by
  refine ⟨Mcp.mapUpdate db uid tid (Mcp.applyUpdate none (some "") now), ?_, ?_⟩
  · simp [Mcp.update_task, Mcp.coerceTaskId, Mcp.updateTaskCore, h, Mcp.applyUpdate]
  · exact findTask_mapUpdate db uid tid (Mcp.applyUpdate none (some "") now) (fun x => rfl) t h

/-- Witness for C10: clearing the description of sample task 2 stores
the empty string and reports the unchanged title. -/
theorem c10_witness :
    Mcp.findTask Mcp.sampleDb "u1" 2 = some Mcp.sampleTask2
    ∧ ∃ db2, Mcp.update_task Mcp.sampleDb "u1" 50 (Mcp.TaskIdArg.int 2) none (some "")
        = Except.ok (([("task_id", Mcp.Value.int Mcp.sampleTask2.id), ("status", Mcp.Value.str "updated"), ("title", Mcp.Value.str Mcp.sampleTask2.title)] : Mcp.Payload), db2)
      ∧ Mcp.findTask db2 "u1" 2 = some { Mcp.sampleTask2 with description := "", updated_at := 50 } :=
  ⟨by decide, c10_update_empty_description Mcp.sampleDb "u1" 50 2 Mcp.sampleTask2 (by decide)⟩

/-- Counterexample for C3: on the sample store, task 1 of user `u1` is
titled "Buy milk", yet `update_task` with the whitespace-only title " "
overwrites the title with " " — a whitespace-only value is truthy under
`if title:` and is NOT treated as "no change". -/
theorem c3_counterexample :
    (Mcp.findTask Mcp.sampleDb "u1" 1).map (fun x => x.title) = some "Buy milk"
    ∧ (Mcp.findTask (Mcp.updateTaskCore Mcp.sampleDb "u1" 99 1 (some " ") none).2 "u1" 1).map (fun x => x.title)
        = some " " := by
  refine ⟨by decide, by decide⟩

/-- Equation for the row visible after `update_task` mutates a found
task. -/
lemma findTask_after_update (db : Mcp.DB) (uid : String) (now : Nat) (tid : Int)
    (title description : Option String) (t : Mcp.Task)
    (h : Mcp.findTask db uid tid = some t) :
    Mcp.findTask (Mcp.updateTaskCore db uid now tid title description).2 uid tid
      = some (Mcp.applyUpdate title description now t) := by
  unfold Mcp.updateTaskCore
  rw [h]
  exact findTask_mapUpdate db uid tid (Mcp.applyUpdate title description now) (fun x => rfl) t h

/-- Claim C3 (amended): in the chat tool path, `update_task` with a
title of `None` or the empty string leaves the existing title unchanged
— so an update can never make a title the empty string — while any
non-empty title value, including a whitespace-only one, overwrites it;
supplying only a description leaves the title untouched. -/
theorem c3_update_title_semantics (db : Mcp.DB) (uid : String) (now : Nat) (tid : Int)
    (description : Option String) (t : Mcp.Task)
    (h : Mcp.findTask db uid tid = some t) :
    (Mcp.findTask (Mcp.updateTaskCore db uid now tid none description).2 uid tid).map (fun x => x.title)
        = some t.title
    ∧ (Mcp.findTask (Mcp.updateTaskCore db uid now tid (some "") description).2 uid tid).map (fun x => x.title)
        = some t.title
    ∧ (∀ s, s ≠ "" →
        (Mcp.findTask (Mcp.updateTaskCore db uid now tid (some s) description).2 uid tid).map (fun x => x.title)
          = some s)
    ∧ (∀ title, t.title ≠ "" →
        (Mcp.findTask (Mcp.updateTaskCore db uid now tid title description).2 uid tid).map (fun x => x.title)
          ≠ some "") := by
  refine ⟨?_, ?_, ?_, ?_⟩
  · rw [findTask_after_update db uid now tid none description t h]
    simp [Mcp.applyUpdate]
  · rw [findTask_after_update db uid now tid (some "") description t h]
    simp [Mcp.applyUpdate]
  · intro s hs
    rw [findTask_after_update db uid now tid (some s) description t h]
    simp [Mcp.applyUpdate, hs]
  · intro title ht
    rw [findTask_after_update db uid now tid title description t h]
    cases title with
    | none => simp [Mcp.applyUpdate, ht]
    | some s =>
      by_cases hs : s = ""
      · subst hs
        simp [Mcp.applyUpdate, ht]
      · simp [Mcp.applyUpdate, hs]

/-- Witness for C3 (amended): updating sample task 1 with an empty title
keeps "Buy milk", and updating it with the non-empty title "Buy bread"
overwrites it. -/
theorem c3_witness :
    (Mcp.findTask (Mcp.updateTaskCore Mcp.sampleDb "u1" 99 1 (some "") none).2 "u1" 1).map (fun x => x.title)
        = some Mcp.sampleTask1.title
    ∧ (Mcp.findTask (Mcp.updateTaskCore Mcp.sampleDb "u1" 99 1 (some "Buy bread") none).2 "u1" 1).map (fun x => x.title)
        = some "Buy bread" :=
  ⟨(c3_update_title_semantics Mcp.sampleDb "u1" 99 1 none Mcp.sampleTask1 (by decide)).2.1,
   (c3_update_title_semantics Mcp.sampleDb "u1" 99 1 none Mcp.sampleTask1 (by decide)).2.2.1 "Buy bread" (by decide)⟩

/-- Counterexample for C4: the chat-layer `add_task` performs no title
validation, so calling it with the empty-string title on an empty store
still reports `status created` and stores a task whose title is the
empty string — a task created through the chat layer can have an empty
title. -/
theorem c4_counterexample :
    Mcp.titlesOf (Mcp.add_task Mcp.emptyDb "u1" 0 Mcp.noParse Mcp.noFmt "" "" "medium" none none).2 = [""]
    ∧ (Mcp.add_task Mcp.emptyDb "u1" 0 Mcp.noParse Mcp.noFmt "" "" "medium" none none).1.take 2
        = [("task_id", Mcp.Value.int 1), ("status", Mcp.Value.str "created")] := by
  refine ⟨by decide, by decide⟩

/-- Claim C4 (amended): for every store and every supplied title — empty
or not — the chat-layer `add_task` creates exactly one new task, owned
by the bound user, whose title is the supplied string stored verbatim;
consequently the created task's title is the empty string exactly when
the supplied title is empty (no validation, and the 1-200 character
bound of the REST layer is not enforced here). -/
theorem c4_add_title_verbatim (db : Mcp.DB) (uid : String) (now : Nat)
    (parse : String → Option Nat) (fmt : Nat → String)
    (title description priority : String) (due_date reminder_at : Option String) :
    Mcp.titlesOf (Mcp.add_task db uid now parse fmt title description priority due_date reminder_at).2
        = Mcp.titlesOf db ++ [title]
    ∧ Mcp.userIdsOf (Mcp.add_task db uid now parse fmt title description priority due_date reminder_at).2
        = Mcp.userIdsOf db ++ [uid]
    ∧ ((Mcp.titlesOf (Mcp.add_task db uid now parse fmt title description priority due_date reminder_at).2).getLast?
        = some "" ↔ title = "") := by
  refine ⟨?_, ?_, ?_⟩
  · unfold Mcp.titlesOf Mcp.add_task
    simp
  · unfold Mcp.userIdsOf Mcp.add_task
    simp
  · unfold Mcp.titlesOf Mcp.add_task
    simp

/-- Claim C5: `add_task` treats an unparsable (or empty) date string as
absent rather than as an error — the task is always created and the
payload always starts with the task id, status `created`, the title and
the priority — and the payload carries a `due_date` or `reminder_at`
key exactly when the corresponding input string was present, non-empty
and successfully parsed. -/
theorem c5_add_task_date_leniency (db : Mcp.DB) (uid : String) (now : Nat)
    (parse : String → Option Nat) (fmt : Nat → String)
    (title description priority : String) (due_date reminder_at : Option String) :
    Mcp.titlesOf (Mcp.add_task db uid now parse fmt title description priority due_date reminder_at).2
        = Mcp.titlesOf db ++ [title]
    ∧ (Mcp.add_task db uid now parse fmt title description priority due_date reminder_at).1.take 4
        = [("task_id", Mcp.Value.int (Int.ofNat db.nextId)), ("status", Mcp.Value.str "created"),
           ("title", Mcp.Value.str title), ("priority", Mcp.Value.str (Mcp.priorityFromString priority).value)]
    ∧ (("due_date" ∈ (Mcp.add_task db uid now parse fmt title description priority due_date reminder_at).1.map (fun p => p.1))
        ↔ ∃ s, due_date = some s ∧ s ≠ "" ∧ (parse (replaceZ s)).isSome = true)
    ∧ (("reminder_at" ∈ (Mcp.add_task db uid now parse fmt title description priority due_date reminder_at).1.map (fun p => p.1))
        ↔ ∃ s, reminder_at = some s ∧ s ≠ "" ∧ (parse (replaceZ s)).isSome = true) := by
  refine ⟨?_, ?_, ?_, ?_⟩
  · unfold Mcp.titlesOf Mcp.add_task
    simp
  · unfold Mcp.add_task
    cases hd : Mcp.parseDateArg parse due_date <;>
      cases hr : Mcp.parseDateArg parse reminder_at <;>
        simp [hd, hr]
  · unfold Mcp.add_task
    cases due_date with
    | none =>
      cases hr : Mcp.parseDateArg parse reminder_at <;>
        simp [Mcp.parseDateArg, hr]
    | some s =>
      by_cases hs : s = ""
      · subst hs
        cases hr : Mcp.parseDateArg parse reminder_at <;>
          simp [Mcp.parseDateArg, hr]
      · cases hp : parse (replaceZ s) <;>
          cases hr : Mcp.parseDateArg parse reminder_at <;>
            simp [Mcp.parseDateArg, hs, hp, hr]
  · unfold Mcp.add_task
    cases reminder_at with
    | none =>
      cases hd : Mcp.parseDateArg parse due_date <;>
        simp [Mcp.parseDateArg, hd]
    | some s =>
      by_cases hs : s = ""
      · subst hs
        cases hd : Mcp.parseDateArg parse due_date <;>
          simp [Mcp.parseDateArg, hd]
      · cases hp : parse (replaceZ s) <;>
          cases hd : Mcp.parseDateArg parse due_date <;>
            simp [Mcp.parseDateArg, hs, hp, hd]

/-- Claim C7: `execute_tool` with a name outside the five defined tools
returns the unknown-tool error payload as an ordinary result with the
store untouched, and for the five tools no user-correctable condition
raises: an arbitrary (possibly missing) task id, an arbitrary status
filter value, and arbitrary title and date strings (including empty
titles and unparsable dates) all produce ordinary `Except.ok` results;
an `Except.error` (a raised exception) can arise only from a malformed
argument mapping or a non-numeric id string. -/
theorem c7_execute_tool_dispatch (db : Mcp.DB) (uid : String) (now : Nat)
    (parse : String → Option Nat) (fmt : Nat → String) (name : String) (args : Mcp.Args)
    (h : ¬ name ∈ (["add_task", "list_tasks", "complete_task", "delete_task", "update_task"] : List String)) :
    Mcp.execute_tool db uid now parse fmt name args
        = Except.ok (Mcp.ToolResult.dict [("error", Mcp.Value.str ("Unknown tool: " ++ name))], db)
    ∧ (∀ tid : Int, Mcp.execute_tool db uid now parse fmt "complete_task" [("task_id", Mcp.Value.int tid)]
        = Except.ok (Mcp.ToolResult.dict (Mcp.completeTaskCore db uid now tid).1, (Mcp.completeTaskCore db uid now tid).2))
    ∧ (∀ tid : Int, Mcp.execute_tool db uid now parse fmt "delete_task" [("task_id", Mcp.Value.int tid)]
        = Except.ok (Mcp.ToolResult.dict (Mcp.deleteTaskCore db uid tid).1, (Mcp.deleteTaskCore db uid tid).2))
    ∧ (∀ (tid : Int) (ti de : String),
        Mcp.execute_tool db uid now parse fmt "update_task"
            [("task_id", Mcp.Value.int tid), ("title", Mcp.Value.str ti), ("description", Mcp.Value.str de)]
          = Except.ok (Mcp.ToolResult.dict (Mcp.updateTaskCore db uid now tid (some ti) (some de)).1,
              (Mcp.updateTaskCore db uid now tid (some ti) (some de)).2))
    ∧ (∀ st : String, Mcp.execute_tool db uid now parse fmt "list_tasks" [("status", Mcp.Value.str st)]
        = Except.ok (Mcp.ToolResult.list (Mcp.list_tasks db uid fmt st), db))
    ∧ (∀ ti dd : String, Mcp.execute_tool db uid now parse fmt "add_task"
          [("title", Mcp.Value.str ti), ("due_date", Mcp.Value.str dd)]
        = Except.ok (Mcp.ToolResult.dict (Mcp.add_task db uid now parse fmt ti "" "medium" (some dd) none).1,
            (Mcp.add_task db uid now parse fmt ti "" "medium" (some dd) none).2)) := by
  simp only [List.mem_cons, List.mem_singleton, not_or] at h
  obtain ⟨h1, h2, h3, h4, h5, _⟩ := h
  refine ⟨?_, fun tid => rfl, fun tid => rfl, fun tid ti de => rfl, fun st => rfl, fun ti dd => rfl⟩
  unfold Mcp.execute_tool
  rw [if_neg h1, if_neg h2, if_neg h3, if_neg h4, if_neg h5]

/-- Witness for C7: executing the unknown tool name "foo" on the sample
store returns the unknown-tool payload and leaves the store unchanged. -/
theorem c7_witness :
    Mcp.execute_tool Mcp.sampleDb "u1" 0 Mcp.noParse Mcp.noFmt "foo" []
      = Except.ok (Mcp.ToolResult.dict [("error", Mcp.Value.str ("Unknown tool: " ++ "foo"))], Mcp.sampleDb) :=
  (c7_execute_tool_dispatch Mcp.sampleDb "u1" 0 Mcp.noParse Mcp.noFmt "foo" [] (by decide)).1

/-- Ids assigned and counter movement of one `InMemoryStorage.add`. -/
lemma cli_add_step (s : Cli.InMemoryStorage) (now : Nat) (ti de : String) :
    ∀ t s2, Cli.InMemoryStorage.add s now ti de = Except.ok (t, s2) →
      t.id = s.next_id ∧ s2.next_id = s.next_id + 1 := by
  intro t s2 h
  unfold Cli.InMemoryStorage.add at h
  by_cases h1 : pyStrip ti = ""
  · simp [h1] at h
  · by_cases h2 : 100 < (pyStrip ti).length
    · simp [h1, h2] at h
    · by_cases h3 : 500 < (pyStrip de).length
      · simp [h1, h2, h3] at h
      · simp [h1, h2, h3] at h
        obtain ⟨ht, hs⟩ := h
        constructor
        · rw [← ht]
        · rw [← hs]

/-- The id counter is untouched by `InMemoryStorage.delete`. -/
lemma cli_delete_step (s : Cli.InMemoryStorage) (tid : Nat) :
    ∀ b s2, Cli.InMemoryStorage.delete s tid = Except.ok (b, s2) → s2.next_id = s.next_id := by
  intro b s2 h
  unfold Cli.InMemoryStorage.delete at h
  by_cases h1 : s.tasks.any (fun p => p.1 == tid) = true
  · simp [h1] at h
    rw [← h.2]
  · simp [h1] at h

/-- Every id recorded by a run of operations is at least the starting
counter value. -/
lemma runOps_ids_ge : ∀ (ops : List Cli.StoreOp) (s : Cli.InMemoryStorage) (i : Nat),
    i ∈ (Cli.runOps s ops).2 → s.next_id ≤ i := by
  intro ops
  induction ops with
  | nil => intro s i hi; simp [Cli.runOps] at hi
  | cons op ops ih =>
    intro s i hi
    cases op with
    | add now ti de =>
      cases hadd : Cli.InMemoryStorage.add s now ti de with
      | ok td =>
        obtain ⟨hid, hnext⟩ := cli_add_step s now ti de td.1 td.2 (by rw [hadd])
        simp only [Cli.runOps, hadd] at hi
        rcases List.mem_cons.mp hi with hi | hi
        · rw [hi, hid]
        · have := ih td.2 i hi
          omega
      | error e =>
        simp only [Cli.runOps, hadd] at hi
        exact ih s i hi
    | delete tid =>
      cases hdel : Cli.InMemoryStorage.delete s tid with
      | ok bd =>
        have hnext := cli_delete_step s tid bd.1 bd.2 (by rw [hdel])
        simp only [Cli.runOps, hdel] at hi
        have := ih bd.2 i hi
        omega
      | error e =>
        simp only [Cli.runOps, hdel] at hi
        exact ih s i hi

/-- The ids recorded by a run of operations are strictly increasing. -/
lemma runOps_ids_sorted : ∀ (ops : List Cli.StoreOp) (s : Cli.InMemoryStorage),
    ((Cli.runOps s ops).2).Pairwise (fun a b => a < b) := by
  intro ops
  induction ops with
  | nil => intro s; simp [Cli.runOps]
  | cons op ops ih =>
    intro s
    cases op with
    | add now ti de =>
      cases hadd : Cli.InMemoryStorage.add s now ti de with
      | ok td =>
        obtain ⟨hid, hnext⟩ := cli_add_step s now ti de td.1 td.2 (by rw [hadd])
        simp only [Cli.runOps, hadd]
        refine List.Pairwise.cons ?_ (ih td.2)
        intro i hi
        have := runOps_ids_ge ops td.2 i hi
        omega
      | error e =>
        simp only [Cli.runOps, hadd]
        exact ih s
    | delete tid =>
      cases hdel : Cli.InMemoryStorage.delete s tid with
      | ok bd =>
        simp only [Cli.runOps, hdel]
        exact ih bd.2
      | error e =>
        simp only [Cli.runOps, hdel]
        exact ih s

/-- Claim C8: over every sequence of add and delete operations on the
in-memory store, the ids assigned to newly created tasks are strictly
increasing in creation order — each new task's id is strictly greater
than every id assigned before it, including ids of tasks deleted in the
meantime, so ids are never reused. -/
theorem c8_ids_strictly_increasing (ops : List Cli.StoreOp) :
    ((Cli.runOps Cli.emptyStorage ops).2).Pairwise (fun a b => a < b) :=
  runOps_ids_sorted ops Cli.emptyStorage
